import Mathlib

/-!
Verification development for the caption-maker service.

This file gives a shallow embedding, in Lean 4, of the parts of the
caption-maker Python code base that the specification claims talk about:

* the SSE stream generator of `src/api/sse_routes.py` (`event_stream`);
* the synchronous caption endpoint of `src/api/routes.py`
  (`generate_caption`, its admission counter and request cache);
* the lazy country-import manager of
  `src/data_import/import_manager.py`;
* the geographic resolver of `src/services/geo_service.py`
  (`get_location_info`);
* the orchestrator of `src/services/ai_service.py`
  (`generate_caption_async`, `_calculate_confidence`);
* the duplicate-detection service of
  `src/services/duplicate_detection_service.py`
  (`_analyze_groups_quality`, `encode_image`, `_get_cache_key`);
* the caption post-processing of `src/config/ai_config.py`
  (`clean_caption`, with the default post-processing configuration
  that `_get_default_config` / `get_post_processing_config` hard-code).

External collaborators (MySQL, HTTP APIs, the CLIP and Ollama models,
the filesystem) are modelled as environment records whose fields give
the outcome of each external call: `Except Unit α` for a call that can
raise, `Option α` for a call that can return no data.  Python floats
are modelled as rationals, Python strings as Lean strings or lists of
characters, and exceptions as explicit control flow.
-/

namespace CaptionMaker

/-! ### Shared string constants (event names, source tags, styles) -/

def evConnected : String := "connected"

def evHeartbeat : String := "heartbeat"

def evProgress : String := "progress"

def evPartial : String := "partial"

def evComplete : String := "complete"

def evError : String := "error"

def styleFallback : String := "fallback"

/-!
### SSE stream generator (`src/api/sse_routes.py`, `event_stream`)

The generator first yields a `connected` event, then loops: each call
to `connection.get_message()` either returns a queued message (yielded
as an SSE response; if its event is `complete` or `error` the response
is yielded a second time and the loop breaks) or times out, in which
case a `heartbeat` event is yielded.  A run of the generator is
modelled by the finite list of `get_message` results it consumes
(`some m` = a queued message, `none` = a timeout).
-/

structure SseMsg where
  event : String
  body : String
deriving DecidableEq

def connectedMsg : SseMsg := ⟨evConnected, "Connexion SSE etablie"⟩

def heartbeatMsg : SseMsg := ⟨evHeartbeat, ""⟩

def terminalEvents : List String := [evComplete, evError]

/-- Loop body of `event_stream`: consume `get_message` results in order;
a terminal message is yielded twice (the source yields `sse_response`
at line 55 and again at line 59 before breaking). -/
def sseStreamGo : List (Option SseMsg) → List SseMsg
  | [] => []
  | none :: rest => heartbeatMsg :: sseStreamGo rest
  | some m :: rest =>
      if m.event ∈ terminalEvents then [m, m]
      else m :: sseStreamGo rest

/-- Full run of `event_stream`: the `connected` event, then the loop. -/
def eventStream (polls : List (Option SseMsg)) : List SseMsg :=
  connectedMsg :: sseStreamGo polls

/-- Number of terminal (`complete` or `error`) events in a stream. -/
def countTerminal (evs : List SseMsg) : Nat :=
  (evs.filter (fun m => m.event ∈ terminalEvents)).length

/-!
### Country import manager (`src/data_import/import_manager.py`)

State: the set of country codes present in the `country_imports` table
(modelled as a list).  The environment gives the country detector's
answer and each importer's result (`Except Unit Int`: row count, or an
exception).  `importersAvailable` distinguishes a populated
`self.importers` dict from the `{}` fallback of `__init__`.
-/

structure ImpEnv where
  detect : ℚ → ℚ → Option String
  importersAvailable : Bool
  importCount : String → String → Except Unit Int

/-- Import order used by `_import_country_data`. -/
def importOrder : List String := ["geonames", "cultural", "unesco", "osm"]

/-- Result of one `_import_country_data` run: the per-importer stats
dict, the `success` flag it computes, and the `country_imports` table
afterwards. -/
structure ImportRun where
  stats : List (String × Int)
  success : Bool
  recorded : List String
deriving DecidableEq

/-- Model of `_record_import` (lines 184-220): refuses to write when
`stats.get('cities', 0) + stats.get('unesco', 0)` is zero, otherwise
upserts the row for the country code.  In the source this method is
only reachable from the legacy `X_import_country_data`. -/
def recordImport (cc : String) (stats : List (String × Int)) (recorded : List String) :
    List String :=
  let total := (stats.lookup "cities").getD 0 + (stats.lookup "unesco").getD 0
  if total = 0 then recorded
  else if cc ∈ recorded then recorded else recorded ++ [cc]

/-- Model of the live `_import_country_data` (lines 95-125): runs the
importers in `importOrder`, accumulating `stats` (an exception counts
as 0) and the `success` flag, and then returns without ever calling
`_record_import` — the `country_imports` table is left untouched. -/
def importCountryData (env : ImpEnv) (cc : String) (recorded : List String) : ImportRun :=
  let stats := importOrder.foldl
    (fun acc name =>
      if env.importersAvailable then
        match env.importCount name cc with
        | .ok n => acc ++ [(name, n)]
        | .error _ => acc ++ [(name, 0)]
      else acc) []
  { stats := stats
    success := stats.any (fun p => 0 < p.2)
    recorded := recorded }

/-- Model of `_is_country_imported`: true iff the table has a row for
the code (a missing table behaves like an empty one). -/
def isCountryImported (recorded : List String) (cc : String) : Bool :=
  cc ∈ recorded

/-- Result of one `ensure_data_for_location` call. -/
structure EnsureResult where
  countryCode : String
  recorded : List String
  ranImport : Bool
deriving DecidableEq

/-- Model of `ensure_data_for_location` (lines 32-52). -/
def ensureDataForLocation (env : ImpEnv) (recorded : List String) (lat lon : ℚ) :
    EnsureResult :=
  match env.detect lat lon with
  | none => ⟨"NC", recorded, false⟩
  | some cc =>
      if isCountryImported recorded cc then ⟨cc, recorded, false⟩
      else
        let run := importCountryData env cc recorded
        ⟨cc, run.recorded, true⟩

/-- Concrete import environment: the detector answers FR, all four
importers exist, GeoNames imports 100 rows, the others import none. -/
def impEnvFR : ImpEnv :=
  { detect := fun _ _ => some "FR"
    importersAvailable := true
    importCount := fun name _ => if name = "geonames" then .ok 100 else .ok 0 }

/-!
### Duplicate detection: embedding cache
(`src/services/duplicate_detection_service.py`, `_get_cache_key` and
`encode_image`)

Image bytes are modelled as `List Nat`, embeddings as `Int`.  The md5
hex digest and the CLIP encoder are external functions, passed as
parameters; `modelOk` is the outcome of `_load_model_if_needed`,
`decodeOk` the outcome of `Image.open(...).convert('RGB')` plus the
model's `encode` call (an exception yields `None`).
-/

structure DupCacheState where
  cache : List (String × Int)
  hits : Nat
  misses : Nat
deriving DecidableEq

/-- Model of `_get_cache_key` (lines 547-550): the asset id joined by
an underscore with the first 8 hex characters of the md5 digest of the
first 1024 bytes of the image data. -/
def getCacheKey (md5hex : List Nat → String) (imageData : List Nat) (assetId : String) :
    String :=
  assetId ++ "_" ++ (md5hex (imageData.take 1024)).take 8

/-- Encoding path taken when the cache is not consulted (no truthy
asset id or caching disabled): decode and encode, without touching the
cache. -/
def encodeImagePlain (clip : List Nat → Int) (decodeOk : Bool) (st : DupCacheState)
    (imageData : List Nat) : Option Int × DupCacheState :=
  if decodeOk then (some (clip imageData), st) else (none, st)

/-- Model of `encode_image` (lines 251-280).  Mirrors the source: load
the model (failure returns `None`); with a truthy asset id and caching
enabled, look the key up and count a hit; otherwise decode, encode,
store under the key and count a miss; decode errors return `None`. -/
def encodeImage (md5hex : List Nat → String) (clip : List Nat → Int)
    (modelOk cacheEmb decodeOk : Bool) (st : DupCacheState)
    (imageData : List Nat) (assetId : Option String) : Option Int × DupCacheState :=
  if modelOk = false then (none, st)
  else
    match assetId with
    | some a =>
        if a ≠ "" ∧ cacheEmb then
          let key := getCacheKey md5hex imageData a
          match st.cache.lookup key with
          | some e => (some e, { st with hits := st.hits + 1 })
          | none =>
              if decodeOk then
                let emb := clip imageData
                (some emb,
                 { st with cache := (key, emb) :: st.cache, misses := st.misses + 1 })
              else (none, st)
        else encodeImagePlain clip decodeOk st imageData
    | none => encodeImagePlain clip decodeOk st imageData

/-!
### Duplicate detection: group quality analysis
(`src/services/duplicate_detection_service.py`, `_analyze_groups_quality`)

A group member carries its asset id, its `is_primary` mark and its
`quality_score`.  The environment tells whether the quality service is
available, whether the `asset_id -> data` map has truthy data for an
asset, and what `analyze_image` returns for it (`Except Unit ℚ`: the
`overall_score`, or an exception, which the source turns into score 0).
-/

structure DupImg where
  assetId : String
  isPrimary : Bool
  qualityScore : ℚ
deriving DecidableEq

structure DupGroupM where
  groupId : String
  images : List DupImg
  primaryAssetId : String
deriving DecidableEq

structure QualityEnv where
  serviceAvailable : Bool
  hasData : String → Bool
  analyze : String → Except Unit ℚ

/-- Score an image exactly as the per-image branch of
`_analyze_groups_quality` does: missing data or an analysis exception
give score 0, otherwise the metrics' `overall_score`. -/
def imageScore (env : QualityEnv) (a : String) : ℚ :=
  if env.hasData a then
    match env.analyze a with
    | .ok q => q
    | .error _ => 0
  else 0

/-- Descending-score order used by
`quality_scores.sort(key=lambda x: x[1], reverse=True)`. -/
def scoreGe (a b : DupImg × ℚ) : Prop := b.2 ≤ a.2

instance : DecidableRel scoreGe := fun a b => inferInstanceAs (Decidable (b.2 ≤ a.2))

instance : IsTotal (DupImg × ℚ) scoreGe := ⟨fun a b => le_total b.2 a.2⟩

instance : IsTrans (DupImg × ℚ) scoreGe := ⟨fun _ _ _ h1 h2 => le_trans h2 h1⟩

/-- The `for i, (img, score) in enumerate(quality_scores)` loop:
member `i` of the (sorted) list gets `is_primary = (i == 0)` and its
score written back. -/
def rankImages : Nat → List (DupImg × ℚ) → List DupImg
  | _, [] => []
  | i, (img, s) :: rest =>
      { img with isPrimary := i == 0, qualityScore := s } :: rankImages (i + 1) rest

/-- Quality pass over one group when the quality service is available:
score every member in order, sort descending by score (Python's stable
`list.sort` is modelled by insertion sort), mark the first member
primary and record it as the group's primary asset. -/
def analyzeGroupQuality (env : QualityEnv) (g : DupGroupM) : DupGroupM :=
  let scored := g.images.map (fun img => (img, imageScore env img.assetId))
  let sorted := List.insertionSort scoreGe scored
  let imgs := rankImages 0 sorted
  { g with
    images := imgs
    primaryAssetId := match imgs with | i :: _ => i.assetId | [] => g.primaryAssetId }

/-- Model of `_analyze_groups_quality` (lines 338-429): without the
quality service, every member keeps its position, gets score 0 and the
first is marked primary; with it, each group goes through
`analyzeGroupQuality`. -/
def analyzeGroupsQuality (env : QualityEnv) (groups : List DupGroupM) : List DupGroupM :=
  if env.serviceAvailable = false then
    groups.map (fun g => { g with images := rankImages 0 (g.images.map (fun i => (i, 0))) })
  else
    groups.map (analyzeGroupQuality env)

/-- A concrete quality environment: service available, data present
for every asset, asset A scoring 5 and everything else 7. -/
def qualityEnvC6 : QualityEnv :=
  { serviceAvailable := true
    hasData := fun _ => true
    analyze := fun a => .ok (if a = "A" then 5 else 7) }

/-- One two-member duplicate group as produced by the grouping pass. -/
def dupGroupsC6 : List DupGroupM :=
  [⟨"group_0", [⟨"A", false, 0⟩, ⟨"B", false, 0⟩], ""⟩]

/-!
### Geographic resolver (`src/services/geo_service.py`, `get_location_info`)

One call is modelled (the in-memory result cache returns previously
computed `GeoLocation`s unchanged, so every cached answer is itself
the result of some modelled call).  The environment gives the outcome
of `connect_db`, of the four local SQL searches (`Except Unit` of the
fetched rows — a raised `mysql` error is caught by the per-stage
`except`), of the Nominatim reverse geocode (`Option`, `None` covering
both an error answer and a caught exception) and of the Overpass
search (which catches internally and returns a list, `[]` on error).
The auto-import call of lines 171-179 is wrapped in its own
`try/except` and does not touch the result, so it is not modelled.
-/

structure GeoRow where
  name : String
  featureClass : String
  featureCode : String
  countryCode : String
deriving DecidableEq

/-- Nominatim answer, with the `address` fields already coalesced the
way `_merge_nominatim_data` reads them (`city` is
`city or town or village or hamlet or municipality`, and so on). -/
structure NomData where
  displayName : String
  city : String
  region : String
  country : String
  countryCode : String
deriving DecidableEq

structure GeoEnv where
  connectOk : Bool
  geonames : Except Unit (List GeoRow)
  unesco : Except Unit (List GeoRow)
  cultural : Except Unit (List GeoRow)
  osm : Except Unit (List GeoRow)
  nominatim : Option NomData
  overpass : List GeoRow

structure GeoLocationM where
  latitude : ℚ
  longitude : ℚ
  formattedAddress : String
  city : String
  region : String
  country : String
  countryCode : String
  unescoSites : List GeoRow
  culturalSites : List GeoRow
  nearbyPois : List GeoRow
  majorCities : List GeoRow
  osmPois : List GeoRow
  geonamesAll : List GeoRow
  confidence : ℚ
  dataSources : List String
  searchRadiusKm : ℚ
deriving DecidableEq

/-- Fresh `GeoLocation(latitude=..., longitude=..., search_radius_km=...)`
with the `__post_init__` empty lists. -/
def emptyLocation (lat lon radius : ℚ) : GeoLocationM :=
  { latitude := lat, longitude := lon, formattedAddress := "", city := "", region := ""
    country := "", countryCode := "", unescoSites := [], culturalSites := []
    nearbyPois := [], majorCities := [], osmPois := [], geonamesAll := []
    confidence := 0, dataSources := [], searchRadiusKm := radius }

/-- Stand-in for the Python f-string `f"{latitude:.4f}, {longitude:.4f}"`
(both fallback sites of the source use this same format, so only the
function's identity matters to the claims, not the digit rendering). -/
def coordAddress (lat lon : ℚ) : String :=
  toString lat ++ ", " ++ toString lon

/-- Feature codes that the GeoNames loop classifies as cultural sites. -/
def culturalCodes : List String :=
  ["MUS", "MNMT", "HSTS", "RUIN", "CSTL", "PAL", "CH", "MSQE", "TMPL", "SHRN"]

/-- Feature classes that the GeoNames loop classifies as natural or
other POIs. -/
def poiClasses : List String := ["T", "H", "L", "S"]

/-- Stage 1 (GeoNames, lines 192-237): on success, store all rows,
categorise them with the if/elif chain (cities capped at 10), and when
a city was found set `city`/`country_code` from the first one, add 0.4
to the confidence and tag the source. -/
def geonamesStage (env : GeoEnv) (loc : GeoLocationM) : GeoLocationM :=
  match env.geonames with
  | .error _ => loc
  | .ok rows =>
      let cities := (rows.filter (fun r => r.featureClass = "P")).take 10
      let cultural := rows.filter
        (fun r => r.featureClass ≠ "P" ∧ r.featureCode ∈ culturalCodes)
      let pois := rows.filter
        (fun r => r.featureClass ≠ "P" ∧ r.featureCode ∉ culturalCodes ∧
          r.featureClass ∈ poiClasses)
      let loc := { loc with geonamesAll := rows, majorCities := cities
                            culturalSites := cultural, nearbyPois := pois }
      match cities with
      | [] => loc
      | c :: _ =>
          { loc with city := c.name, countryCode := c.countryCode
                     confidence := loc.confidence + 2/5
                     dataSources := loc.dataSources ++ ["geonames"] }

/-- Stage 2 (UNESCO, lines 239-252): assign the fetched sites, and when
non-empty add 0.3 and tag the source. -/
def unescoStage (env : GeoEnv) (loc : GeoLocationM) : GeoLocationM :=
  match env.unesco with
  | .error _ => loc
  | .ok sites =>
      let loc := { loc with unescoSites := sites }
      if sites.isEmpty then loc
      else { loc with dataSources := loc.dataSources ++ ["unesco"]
                      confidence := loc.confidence + 3/10 }

/-- Stage 3 (cultural DB, lines 254-267): when non-empty, merge into
the running cultural list skipping entries already present, add 0.2
and tag the source. -/
def culturalStage (env : GeoEnv) (loc : GeoLocationM) : GeoLocationM :=
  match env.cultural with
  | .error _ => loc
  | .ok sites =>
      if sites.isEmpty then loc
      else
        let merged := sites.foldl
          (fun acc s => if s ∈ acc then acc else acc ++ [s]) loc.culturalSites
        { loc with culturalSites := merged
                   dataSources := loc.dataSources ++ ["cultural_db"]
                   confidence := loc.confidence + 1/5 }

/-- Stage 4 (OSM POIs, lines 269-281): assign the fetched POIs, and
when non-empty add 0.2 and tag the source. -/
def osmStage (env : GeoEnv) (loc : GeoLocationM) : GeoLocationM :=
  match env.osm with
  | .error _ => loc
  | .ok pois =>
      let loc := { loc with osmPois := pois }
      if pois.isEmpty then loc
      else { loc with dataSources := loc.dataSources ++ ["osm_db"]
                      confidence := loc.confidence + 1/5 }

/-- The `_merge_nominatim_data` assignments (lines 754-783). -/
def mergeNominatim (loc : GeoLocationM) (d : NomData) : GeoLocationM :=
  { loc with
    formattedAddress := d.displayName
    city := if loc.city = "" then d.city else loc.city
    region := if loc.region = "" then d.region else loc.region
    country := if loc.country = "" then d.country else loc.country
    countryCode := if loc.countryCode = "" then d.countryCode.toUpper else loc.countryCode }

/-- Stage 5 (Nominatim, lines 283-294): attempted when the confidence
is below 0.8 or no formatted address exists yet; on data, merge it,
tag the source and set the confidence to `min (conf + 0.2) 1.0` — the
only clipped addition of the whole pipeline. -/
def nominatimStage (env : GeoEnv) (loc : GeoLocationM) : GeoLocationM :=
  if loc.confidence < 4/5 ∨ loc.formattedAddress = "" then
    match env.nominatim with
    | none => loc
    | some d =>
        let loc := mergeNominatim loc d
        { loc with dataSources := loc.dataSources ++ ["nominatim"]
                   confidence := min (loc.confidence + 1/5) 1 }
  else loc

/-- Stage 6 (Overpass, lines 296-307): attempted when fewer than 5
POIs were collected and the confidence is below 0.9; on a non-empty
answer, extend the POIs, tag the source and add 0.1. -/
def overpassStage (env : GeoEnv) (loc : GeoLocationM) : GeoLocationM :=
  if loc.nearbyPois.length < 5 ∧ loc.confidence < 9/10 then
    if env.overpass.isEmpty then loc
    else { loc with nearbyPois := loc.nearbyPois ++ env.overpass
                    dataSources := loc.dataSources ++ ["overpass_api"]
                    confidence := loc.confidence + 1/10 }
  else loc

/-- Keep the first occurrence of each non-empty name
(`_deduplicate_sites`, lines 828-839). -/
def dedupeByName (sites : List GeoRow) : List GeoRow :=
  (sites.foldl
    (fun (acc : List GeoRow × List String) s =>
      if s.name ≠ "" ∧ s.name ∉ acc.2 then (acc.1 ++ [s], acc.2 ++ [s.name]) else acc)
    ([], [])).1

/-- Stage 7 (`_finalize_location_data`, lines 785-826): synthesise an
address when none was set (UNESCO site, else cultural site, then city,
region when distinct, country; the raw coordinates when all are
missing), shorten addresses over 150 characters, and deduplicate the
cultural and POI lists. -/
def finalizeLocation (loc : GeoLocationM) : GeoLocationM :=
  let loc :=
    if loc.formattedAddress = "" then
      let parts :=
        (match loc.unescoSites with
         | s :: _ => [s.name]
         | [] => match loc.culturalSites with
                 | s :: _ => [s.name]
                 | [] => []) ++
        (if loc.city ≠ "" then [loc.city] else []) ++
        (if loc.region ≠ "" ∧ loc.region ≠ loc.city then [loc.region] else []) ++
        (if loc.country ≠ "" then [loc.country] else [])
      { loc with formattedAddress :=
          if parts.isEmpty then coordAddress loc.latitude loc.longitude
          else String.intercalate ", " parts }
    else loc
  let loc :=
    if 150 < loc.formattedAddress.length then
      if loc.city ≠ "" ∧ loc.country ≠ "" then
        { loc with formattedAddress := loc.city ++ ", " ++ loc.country }
      else
        { loc with formattedAddress := loc.formattedAddress.take 147 ++ "..." }
    else loc
  { loc with culturalSites := dedupeByName loc.culturalSites
             nearbyPois := dedupeByName loc.nearbyPois }

/-- Body of `get_location_info` after validation: the outer
`try/except/finally` around the seven stages.  A `connect_db` failure
reaches the outer `except`, which overwrites the address with the raw
coordinates and the confidence with 0.1; failures inside a stage are
caught by that stage's own `except` and only skip it. -/
def locationBody (env : GeoEnv) (lat lon radius : ℚ) : GeoLocationM :=
  let loc0 := emptyLocation lat lon radius
  if env.connectOk = false then
    { loc0 with formattedAddress := coordAddress lat lon, confidence := 1/10 }
  else
    finalizeLocation
      (overpassStage env
        (nominatimStage env
          (osmStage env
            (culturalStage env
              (unescoStage env
                (geonamesStage env loc0))))))

/-- Model of `get_location_info` (lines 151-337): out-of-range
coordinates raise `ValueError`; everything else returns a
`GeoLocation`. -/
def getLocationInfo (env : GeoEnv) (lat lon radius : ℚ) : Except String GeoLocationM :=
  if -90 ≤ lat ∧ lat ≤ 90 ∧ -180 ≤ lon ∧ lon ≤ 180 then
    .ok (locationBody env lat lon radius)
  else .error "Coordonnees invalides"

/-- Environment in which all four local sources answer with data but
both external APIs yield nothing. -/
def geoEnvAllLocal : GeoEnv :=
  { connectOk := true
    geonames := .ok [⟨"Paris", "P", "PPLC", "FR"⟩]
    unesco := .ok [⟨"Banks of the Seine", "S", "HSTS", "FR"⟩]
    cultural := .ok [⟨"Louvre", "S", "MUS", "FR"⟩]
    osm := .ok [⟨"Tour Eiffel", "S", "TOWR", "FR"⟩]
    nominatim := none
    overpass := [] }

/-- Environment in which the connection succeeds but every query and
both external APIs fail. -/
def geoEnvAllFail : GeoEnv :=
  { connectOk := true
    geonames := .error ()
    unesco := .error ()
    cultural := .error ()
    osm := .error ()
    nominatim := none
    overpass := [] }

/-- Environment in which even `connect_db` fails. -/
def geoEnvDown : GeoEnv :=
  { geoEnvAllFail with connectOk := false }

/-!
### Orchestrator (`src/services/ai_service.py`, `generate_caption_async`)

The environment records what each stage's external call would produce:
`Except Unit α` models a call that can raise (the orchestrator's outer
`except` turns any stage exception into the fallback result).  The geo
summary dict returned by `get_location_summary_for_ai` is modelled by
its string fields; a `some` value means the geolocation stage ran (the
summary dict is always non-empty, hence truthy, when it ran at all).
`geoCalled` records whether `geo_service.get_location_info` was
invoked.
-/

structure ImgResult where
  description : String
  confidence : ℚ
  modelUsed : String
deriving DecidableEq

structure GeoCtxM where
  locationBasic : String
  culturalContext : String
  nearbyAttractions : String
  culturalEnrichment : String
  geographicContext : String
deriving DecidableEq

structure AIEnv where
  imageAnalysis : Except Unit ImgResult
  geoSummary : Except Unit GeoCtxM
  travel : Except Unit (Option String)
  captionGen : Except Unit String
  hashtagGen : Except Unit (List String)

structure CaptionResultM where
  caption : String
  hashtags : List String
  language : String
  style : String
  confidence : ℚ
  geoCalled : Bool
  errors : List String
deriving DecidableEq

/-- Python truthiness of an optional float: `None` and `0.0` are
falsy, every other value truthy (`if latitude and longitude:`). -/
def floatTruthy : Option ℚ → Bool
  | none => false
  | some q => if q = 0 then false else true

/-- Number of whitespace-separated words, as `len(caption.split())`. -/
def wordCount (s : String) : Nat :=
  ((s.split (fun c => c = ' ' ∨ c = '\t' ∨ c = '\n' ∨ c = '\r')).filter
    (fun w => w ≠ "")).length

/-- Model of `_calculate_confidence` (lines 224-246): 30% of the image
confidence, 0.3 when a geo context exists, 0.2 for a travel
enrichment, a caption-length term, capped at 0.95. -/
def calcConfidence (imgConf : ℚ) (hasGeo hasTravel : Bool) (captionWords : Nat) : ℚ :=
  let s := imgConf * (3/10)
  let s := if hasGeo then s + 3/10 else s
  let s := if hasTravel then s + 1/5 else s
  let s :=
    if 40 ≤ captionWords ∧ captionWords ≤ 120 then s + 1/5
    else if 20 ≤ captionWords ∧ captionWords < 40 then s + 1/10
    else s
  min s (19/20)

/-- Default generic-error fallback text of `get_fallback_message`
(the hard-coded default when the message type is missing from the
configuration). -/
def fallbackCaption : String := "Une belle photo capturee dans un moment unique."

/-- The `except` branch of `generate_caption_async` (lines 193-211):
fallback caption, no hashtags, style `fallback`, confidence 0.1. -/
def fallbackResult (language : String) (geoCalled : Bool) : CaptionResultM :=
  { caption := fallbackCaption
    hashtags := []
    language := language
    style := styleFallback
    confidence := 1/10
    geoCalled := geoCalled
    errors := ["stage exception"] }

/-- Stages 3-7 of `generate_caption_async`, entered once the image
analysis succeeded and the geolocation decision was taken
(`geo = none` when the stage was skipped or GPS was absent). -/
def aiAfterGeo (env : AIEnv) (img : ImgResult) (geo : Option GeoCtxM)
    (language style : String) (includeHashtags : Bool) : CaptionResultM :=
  let travelStep : Except Unit (Option String) :=
    match geo with
    | some g => if g.locationBasic ≠ "" then env.travel else .ok none
    | none => .ok none
  match travelStep with
  | .error _ => fallbackResult language geo.isSome
  | .ok travel =>
      match env.captionGen with
      | .error _ => fallbackResult language geo.isSome
      | .ok caption =>
          match (if includeHashtags then env.hashtagGen else .ok []) with
          | .error _ => fallbackResult language geo.isSome
          | .ok hashtags =>
              { caption := caption
                hashtags := hashtags
                language := language
                style := style
                confidence := calcConfidence img.confidence geo.isSome travel.isSome
                  (wordCount caption)
                geoCalled := geo.isSome
                errors := [] }

/-- Model of `generate_caption_async` (lines 66-211).  The geolocation
stage runs only when `latitude and longitude` is truthy in the Python
sense, so a coordinate equal to 0.0 (or absent) skips it entirely. -/
def generateCaptionAsync (env : AIEnv) (lat lon : Option ℚ)
    (language style : String) (includeHashtags : Bool) : CaptionResultM :=
  match env.imageAnalysis with
  | .error _ => fallbackResult language false
  | .ok img =>
      if floatTruthy lat && floatTruthy lon then
        match env.geoSummary with
        | .error _ => fallbackResult language true
        | .ok geo => aiAfterGeo env img (some geo) language style includeHashtags
      else aiAfterGeo env img none language style includeHashtags

/-!
### Synchronous caption endpoint (`src/api/routes.py`, `generate_caption`)

The module-global `active_requests` counter, the generation cache and
the request environment are threaded explicitly.  The whole handler
body is a `try` whose outer `finally` always runs `active_requests -= 1`
— including on the rejection path (which never incremented) and on the
cache-hit path (which already decremented by hand at line 149).
-/

structure CacheKeyM where
  assetId : String
  lat6 : ℚ
  lon6 : ℚ
  language : String
  style : String
deriving DecidableEq

/-- The `round(x, 6)` applied by `get_caption`/`set_caption` before
keying (Mathlib's `round` stands in for Python's float rounding; the
claims never depend on the tie-breaking rule). -/
def roundTo6 (q : ℚ) : ℚ := (round (q * 1000000) : ℤ) / 1000000

/-- Response dictionary assembled by `prepare_response_data` (the
fields the claims talk about). -/
structure RespData where
  success : Bool
  cached : Bool
  assetId : String
  caption : String
  style : String
  language : String
  confidence : ℚ
deriving DecidableEq

def prepareResponseData (r : CaptionResultM) (assetId : String) : RespData :=
  { success := true, cached := false, assetId := assetId, caption := r.caption
    style := r.style, language := r.language, confidence := r.confidence }

/-- `CacheManager.set` keyed through `GenerationCache.set_caption`:
replace any entry under the same key (TTL expiry and LRU eviction are
time- and size-dependent and are not modelled). -/
def cacheSet (key : CacheKeyM) (resp : RespData) (cache : List (CacheKeyM × RespData)) :
    List (CacheKeyM × RespData) :=
  (key, resp) :: cache.filter (fun kv => kv.1 ≠ key)

/-- Request environment of one call to the synchronous endpoint. -/
structure SyncReq where
  jsonOk : Bool
  assetId : String
  hasImage : Bool
  lat : Option ℚ
  lon : Option ℚ
  language : String
  style : String
  imageSaveOk : Bool
  aiAvailable : Bool
  innerRaises : Bool

/-- Outcome of one call: HTTP status, the counter afterwards, the
cache afterwards, and the response body when one was produced. -/
structure SyncOutcome where
  status : Nat
  activeAfter : Int
  cache : List (CacheKeyM × RespData)
  body : Option RespData
deriving DecidableEq

/-- Model of `generate_caption` (lines 86-232).  Every `return` inside
the `try` still passes through the outer `finally`, so each branch
below ends with one decrement — on top of the explicit `active_requests
-= 1` of the cache-hit branch, and despite the rejection branch never
having incremented. -/
def generateCaptionRoute (maxConc : Nat) (active : Int)
    (cache : List (CacheKeyM × RespData)) (aienv : AIEnv) (req : SyncReq) : SyncOutcome :=
  if maxConc ≤ active then
    { status := 429, activeAfter := active - 1, cache := cache, body := none }
  else
    let a := active + 1
    if req.jsonOk = false then
      { status := 400, activeAfter := a - 1, cache := cache, body := none }
    else if req.assetId = "" then
      { status := 400, activeAfter := a - 1, cache := cache, body := none }
    else if req.hasImage = false then
      { status := 400, activeAfter := a - 1, cache := cache, body := none }
    else
      match req.lat, req.lon with
      | some la, some lo =>
          if -90 ≤ la ∧ la ≤ 90 ∧ -180 ≤ lo ∧ lo ≤ 180 then
            let key : CacheKeyM :=
              ⟨req.assetId, roundTo6 la, roundTo6 lo, req.language, req.style⟩
            match cache.lookup key with
            | some r =>
                { status := 200, activeAfter := a - 1 - 1, cache := cache, body := some r }
            | none =>
                if req.imageSaveOk = false then
                  { status := 400, activeAfter := a - 1, cache := cache, body := none }
                else if req.aiAvailable = false then
                  { status := 500, activeAfter := a - 1, cache := cache, body := none }
                else if req.innerRaises then
                  { status := 500, activeAfter := a - 1, cache := cache, body := none }
                else
                  let r := generateCaptionAsync aienv (some la) (some lo)
                    req.language req.style true
                  let resp := prepareResponseData r req.assetId
                  { status := 200, activeAfter := a - 1
                    cache := cacheSet key resp cache, body := some resp }
          else { status := 400, activeAfter := a - 1, cache := cache, body := none }
      | _, _ => { status := 400, activeAfter := a - 1, cache := cache, body := none }

/-- An AI environment whose very first stage raises, which drives the
orchestrator into its fallback result. -/
def aiEnvImageFails : AIEnv :=
  { imageAnalysis := .error ()
    geoSummary := .error ()
    travel := .ok none
    captionGen := .error ()
    hashtagGen := .error () }

/-- An AI environment in which every stage succeeds. -/
def aiEnvAllOk : AIEnv :=
  { imageAnalysis := .ok ⟨"a beach at sunset", 4/5, "llava"⟩
    geoSummary := .ok ⟨"Nice, France", "", "", "", ""⟩
    travel := .ok (some "popular riviera spot")
    captionGen := .ok "Golden light on the riviera"
    hashtagGen := .ok ["#beach"] }

/-- A well-formed request for the synchronous endpoint. -/
def reqStd : SyncReq :=
  { jsonOk := true, assetId := "asset-1", hasImage := true
    lat := some 10, lon := some 20, language := "fr", style := "creative"
    imageSaveOk := true, aiAvailable := true, innerRaises := false }

/-!
### Caption post-processing (`src/config/ai_config.py`, `clean_caption`)

Captions are modelled as `List Char`.  The configuration used is the
code's own default post-processing configuration
(`get_post_processing_config`): strip patterns `^#.*$` (multiline),
`\*{2,}` and `_{2,}`, an empty forbidden-word list (so that pass is
the identity and is not modelled further), whitespace collapse
`re.sub(r'\s+', ' ', ...)` followed by `strip()`, and sentence
truncation over the character budget.  The budget (`max_caption_length`,
default 500) and sentence cap (`max_sentences_if_too_long`, default 3)
stay parameters.
-/

/-- Python's `\s` on the characters these claims range over (the ASCII
whitespace class `[ \t\n\r\f\v]`). -/
def pyIsSpace (c : Char) : Bool :=
  c = ' ' ∨ c = '\t' ∨ c = '\n' ∨ c = '\r' ∨ c = '\x0b' ∨ c = '\x0c'

/-- State machine for `re.sub("^#.*$", '', caption, flags=MULTILINE)`:
state 0 = at a line start, 1 = inside a kept line, 2 = skipping the
content of a line that started with `#` (its newline is kept, as the
regex does not consume it). -/
def rhlAux : Nat → List Char → List Char
  | _, [] => []
  | st, c :: rest =>
      if st = 2 then
        if c = '\n' then c :: rhlAux 0 rest else rhlAux 2 rest
      else if st = 0 ∧ c = '#' then rhlAux 2 rest
      else if c = '\n' then c :: rhlAux 0 rest
      else c :: rhlAux 1 rest

def removeHashLines (l : List Char) : List Char := rhlAux 0 l

/-- State machine for `re.sub("\*{2,}", '', ...)` (and `_{2,}`): state
0 = normal, 1 = one pending `t`, 2 = inside a run of length at least 2
being dropped.  A maximal run of two or more `t`s is removed, a single
`t` is kept. -/
def runsAux (t : Char) : Nat → List Char → List Char
  | st, [] => if st = 1 then [t] else []
  | st, c :: rest =>
      if st = 2 then
        if c = t then runsAux t 2 rest else c :: runsAux t 0 rest
      else if c = t then
        if st = 1 then runsAux t 2 rest else runsAux t 1 rest
      else if st = 1 then t :: c :: runsAux t 0 rest
      else c :: runsAux t 0 rest

def removeRuns (t : Char) (l : List Char) : List Char := runsAux t 0 l

/-- State machine for `re.sub(r'\s+', ' ', ...)`: each maximal run of
whitespace becomes a single space (the flag says whether the previous
character was part of a whitespace run already emitted). -/
def subWsAux : Bool → List Char → List Char
  | _, [] => []
  | inRun, c :: rest =>
      if pyIsSpace c then
        if inRun then subWsAux true rest else ' ' :: subWsAux true rest
      else c :: subWsAux false rest

def subWs (l : List Char) : List Char := subWsAux false l

/-- Python's `str.strip()` over the same whitespace class: drop the
trailing run (via reverse), then the leading run. -/
def stripWs (l : List Char) : List Char :=
  ((l.reverse.dropWhile pyIsSpace).reverse).dropWhile pyIsSpace

/-- The cleaning passes of `clean_caption` before the length check:
strip patterns in configuration order, (empty) forbidden-word removal,
whitespace collapse, strip. -/
def preClean (l : List Char) : List Char :=
  stripWs (subWs (removeRuns '_' (removeRuns '*' (removeHashLines l))))

/-- The over-budget branch of `clean_caption`:
`'. '.join(caption.split('.')[:max_sentences]) + '.'`. -/
def truncateSentences (maxSent : Nat) (l : List Char) : List Char :=
  List.intercalate ['.', ' '] ((l.splitOn '.').take maxSent) ++ ['.']

/-- Model of `clean_caption` (lines 246-271) under the default
post-processing configuration, with the character budget and sentence
cap as parameters. -/
def cleanCaption (maxLen maxSent : Nat) (l : List Char) : List Char :=
  if l = [] then l
  else
    let c := preClean l
    if maxLen < c.length then truncateSentences maxSent c else c

/-- Default `max_caption_length`. -/
def defaultMaxCaptionLength : Nat := 500

/-- Default `max_sentences_if_too_long`. -/
def defaultMaxSentences : Nat := 3

/-- Boolean check that no two adjacent characters both equal `t`. -/
def noAdjacentB (t : Char) : List Char → Bool
  | [] => true
  | [_] => true
  | a :: b :: rest => (!(a == t && b == t)) && noAdjacentB t (b :: rest)

/-- No two adjacent occurrences of the character `t`. -/
def noAdjacent (t : Char) (l : List Char) : Prop :=
  noAdjacentB t l = true

instance (t : Char) (l : List Char) : Decidable (noAdjacent t l) :=
  inferInstanceAs (Decidable (noAdjacentB t l = true))

/-!
## Theorems

One theorem (plus witness or counterexample where required) per claim,
with shared helper lemmas first.
-/

/-- C1: the claim says every stream carries exactly one terminal event.
On the code, `event_stream` yields the terminal SSE response twice
(lines 55 and 59) before breaking: a queue holding one `progress` and
one `complete` message produces the stream `connected, progress,
complete, complete` — two terminal events. -/
theorem c1_terminal_event_emitted_twice :
    eventStream [some ⟨evProgress, "p"⟩, some ⟨evComplete, "final"⟩] =
      [connectedMsg, ⟨evProgress, "p"⟩, ⟨evComplete, "final"⟩, ⟨evComplete, "final"⟩] ∧
    countTerminal (eventStream [some ⟨evProgress, "p"⟩, some ⟨evComplete, "final"⟩]) = 2 := by
  decide

/-- C2: the claim says a first-ever import with a succeeding dataset
records a row so the next call skips the import.  On the code,
`_import_country_data` computes its stats and `success` flag but never
calls `_record_import`: starting from an empty `country_imports` table,
a first call for FR (GeoNames importing 100 rows) runs the import and
leaves the table empty, and a second call for the same coordinates
runs the full import again. -/
theorem c2_successful_import_never_recorded :
    (ensureDataForLocation impEnvFR [] 48 2).ranImport = true ∧
    (importCountryData impEnvFR "FR" []).success = true ∧
    (ensureDataForLocation impEnvFR [] 48 2).recorded = [] ∧
    (ensureDataForLocation impEnvFR
      (ensureDataForLocation impEnvFR [] 48 2).recorded 48 2).ranImport = true := by
  decide

/-- C3: the claim says every exit path balances the admission counter
so it never goes negative.  On the code, the cache-hit path decrements
twice (line 149 and the outer `finally`), so a single cache-served
request started at counter 0 leaves the counter at -1; and the
rejection path, which never incremented, still decrements in the
outer `finally` (counter 5 becomes 4 while 5 requests are in flight). -/
theorem c3_counter_goes_negative_on_cache_hit :
    (generateCaptionRoute 5 0
      [(⟨"asset-1", roundTo6 10, roundTo6 20, "fr", "creative"⟩,
        prepareResponseData (generateCaptionAsync aiEnvAllOk (some 10) (some 20)
          "fr" "creative" true) "asset-1")]
      aiEnvAllOk reqStd).activeAfter = -1 ∧
    (generateCaptionRoute 5 5 [] aiEnvAllOk reqStd).status = 429 ∧
    (generateCaptionRoute 5 5 [] aiEnvAllOk reqStd).activeAfter = 4 := by
  refine ⟨?_, by decide, by decide⟩
  norm_num +decide [generateCaptionRoute, reqStd, List.lookup]

/-- C4 counterexample: with the four local sources contributing and
Nominatim unavailable the confidence is 0.4 + 0.3 + 0.2 + 0.2 = 1.1,
strictly above 1 — the clip to 1.0 exists only inside the Nominatim
branch, refuting the claim that the sum is clipped for every
combination of sources. -/
theorem c4_counterexample_confidence_above_one :
    ((getLocationInfo geoEnvAllLocal 10 20 10).toOption.map GeoLocationM.confidence =
      some (11/10)) ∧
    ((getLocationInfo geoEnvAllLocal 10 20 10).toOption.map GeoLocationM.dataSources =
      some ["geonames", "unesco", "cultural_db", "osm_db"]) ∧
    ¬((11 : ℚ)/10 ≤ 1) := by
  refine ⟨?_, ?_, by norm_num⟩ <;>
  norm_num +decide [getLocationInfo, locationBody, geoEnvAllLocal, emptyLocation,
    geonamesStage, unescoStage, culturalStage, osmStage, nominatimStage, overpassStage,
    finalizeLocation, dedupeByName, Except.toOption, culturalCodes, poiClasses]

/-- C5 counterexample: when the connection succeeds but every query
and both external APIs fail, the per-stage handlers swallow the
errors, no stage contributes, and the returned location has the raw
coordinates as address with confidence 0 — not the 0.1 the claim
asserts for failing queries. -/
theorem c5_counterexample_query_failures_give_confidence_zero :
    ((getLocationInfo geoEnvAllFail 1 2 10).toOption.map GeoLocationM.confidence =
      some 0) ∧
    ((getLocationInfo geoEnvAllFail 1 2 10).toOption.map GeoLocationM.formattedAddress =
      some (coordAddress 1 2)) ∧
    (0 : ℚ) ≠ 1/10 := by
  refine ⟨?_, ?_, by norm_num⟩ <;>
  norm_num +decide [getLocationInfo, locationBody, geoEnvAllFail, emptyLocation,
    geonamesStage, unescoStage, culturalStage, osmStage, nominatimStage, overpassStage,
    finalizeLocation, dedupeByName, Except.toOption]

/-! Confidence evolution of each resolver stage. -/

theorem geonamesStage_confidence (env : GeoEnv) (loc : GeoLocationM) :
    (geonamesStage env loc).confidence = loc.confidence ∨
    (geonamesStage env loc).confidence = loc.confidence + 2/5 := by
  unfold geonamesStage
  rcases env.geonames with e | rows
  · exact Or.inl rfl
  · dsimp only
    rcases hc : (rows.filter fun r => decide (r.featureClass = "P")).take 10 with _ | ⟨c, cs⟩
    · rw [hc]
      exact Or.inl rfl
    · rw [hc]
      exact Or.inr rfl

theorem unescoStage_confidence (env : GeoEnv) (loc : GeoLocationM) :
    (unescoStage env loc).confidence = loc.confidence ∨
    (unescoStage env loc).confidence = loc.confidence + 3/10 := by
  unfold unescoStage
  rcases env.unesco with e | sites
  · exact Or.inl rfl
  · dsimp only
    split
    · exact Or.inl rfl
    · exact Or.inr rfl

theorem culturalStage_confidence (env : GeoEnv) (loc : GeoLocationM) :
    (culturalStage env loc).confidence = loc.confidence ∨
    (culturalStage env loc).confidence = loc.confidence + 1/5 := by
  unfold culturalStage
  rcases env.cultural with e | sites
  · exact Or.inl rfl
  · dsimp only
    split
    · exact Or.inl rfl
    · exact Or.inr rfl

theorem osmStage_confidence (env : GeoEnv) (loc : GeoLocationM) :
    (osmStage env loc).confidence = loc.confidence ∨
    (osmStage env loc).confidence = loc.confidence + 1/5 := by
  unfold osmStage
  rcases env.osm with e | pois
  · exact Or.inl rfl
  · dsimp only
    split
    · exact Or.inl rfl
    · exact Or.inr rfl

theorem nominatimStage_confidence (env : GeoEnv) (loc : GeoLocationM) :
    (nominatimStage env loc).confidence = loc.confidence ∨
    (nominatimStage env loc).confidence = min (loc.confidence + 1/5) 1 := by
  unfold nominatimStage
  split
  · rcases env.nominatim with _ | d
    · exact Or.inl rfl
    · exact Or.inr rfl
  · exact Or.inl rfl

theorem overpassStage_confidence (env : GeoEnv) (loc : GeoLocationM) :
    (overpassStage env loc).confidence = loc.confidence ∨
    (loc.confidence < 9/10 ∧
      (overpassStage env loc).confidence = loc.confidence + 1/10) := by
  unfold overpassStage
  split
  · split
    · exact Or.inl rfl
    · rename_i h _
      exact Or.inr ⟨h.2, rfl⟩
  · exact Or.inl rfl

theorem finalizeLocation_confidence (loc : GeoLocationM) :
    (finalizeLocation loc).confidence = loc.confidence := by
  unfold finalizeLocation
  dsimp only
  split_ifs <;> rfl

/-! Interval transport lemmas for the confidence chain. -/

theorem confStep {c cn k hi : ℚ} (h : cn = c ∨ cn = c + k) (hk : 0 ≤ k)
    (hb : 0 ≤ c ∧ c ≤ hi) : 0 ≤ cn ∧ cn ≤ hi + k := by
  rcases h with rfl | rfl <;> constructor <;> linarith [hb.1, hb.2]

theorem confClip {c cn hi : ℚ} (h : cn = c ∨ cn = min (c + 1/5) 1)
    (hb : 0 ≤ c ∧ c ≤ hi) (h1 : 1 ≤ hi) : 0 ≤ cn ∧ cn ≤ hi := by
  rcases h with rfl | rfl
  · exact hb
  · constructor
    · exact le_min (by linarith [hb.1]) (by norm_num)
    · exact le_trans (min_le_right _ _) h1

theorem confOver {c cn hi : ℚ} (h : cn = c ∨ (c < 9/10 ∧ cn = c + 1/10))
    (hb : 0 ≤ c ∧ c ≤ hi) (h1 : 1 ≤ hi) : 0 ≤ cn ∧ cn ≤ hi := by
  rcases h with rfl | ⟨hlt, rfl⟩
  · exact hb
  · constructor <;> linarith [hb.1]

/-- C4 (amended): every GeoLocation returned by the lookup has its
confidence in the interval [0, 1.1] — not [0, 1]: the sum of the local
contributions (0.4 + 0.3 + 0.2 + 0.2) is not clipped, the `min (- + 0.2) 1`
clip applies only when the Nominatim step contributes, and the
Overpass step only adds its 0.1 below 0.9. -/
theorem c4_confidence_in_zero_to_eleven_tenths (env : GeoEnv) (lat lon radius : ℚ)
    (loc : GeoLocationM) (h : getLocationInfo env lat lon radius = .ok loc) :
    0 ≤ loc.confidence ∧ loc.confidence ≤ 11/10 := by
  unfold getLocationInfo at h
  by_cases hv : -90 ≤ lat ∧ lat ≤ 90 ∧ -180 ≤ lon ∧ lon ≤ 180
  · rw [if_pos hv] at h
    injection h with h
    subst h
    unfold locationBody
    by_cases hc : env.connectOk = false
    · rw [if_pos hc]
      constructor <;> norm_num
    · rw [if_neg hc]
      have h0 : 0 ≤ (emptyLocation lat lon radius).confidence ∧
          (emptyLocation lat lon radius).confidence ≤ 0 := ⟨le_refl 0, le_refl 0⟩
      have b1 := confStep (geonamesStage_confidence env _) (by norm_num) h0
      have b2 := confStep (unescoStage_confidence env _) (by norm_num) b1
      have b3 := confStep (culturalStage_confidence env _) (by norm_num) b2
      have b4 := confStep (osmStage_confidence env _) (by norm_num) b3
      have b4' : 0 ≤ (osmStage env (culturalStage env (unescoStage env
          (geonamesStage env (emptyLocation lat lon radius))))).confidence ∧
          (osmStage env (culturalStage env (unescoStage env
          (geonamesStage env (emptyLocation lat lon radius))))).confidence ≤ 11/10 :=
        ⟨b4.1, by linarith [b4.2]⟩
      have b5 := confClip (nominatimStage_confidence env _) b4' (by norm_num)
      have b6 := confOver (overpassStage_confidence env _) b5 (by norm_num)
      rw [finalizeLocation_confidence]
      exact b6
  · rw [if_neg hv] at h
    exact absurd h (by simp)

/-- C4 witness: the all-queries-fail environment at coordinates (1, 2)
satisfies the bounds. -/
theorem c4_confidence_in_zero_to_eleven_tenths_witness :
    0 ≤ (locationBody geoEnvAllFail 1 2 10).confidence ∧
    (locationBody geoEnvAllFail 1 2 10).confidence ≤ 11/10 :=
  c4_confidence_in_zero_to_eleven_tenths geoEnvAllFail 1 2 10 _ (by rfl)

/-- C5 (amended): for in-range coordinates the lookup always returns a
GeoLocation (it never raises), and when the database connection itself
fails the result carries only the coordinates: address is the raw
coordinate string and the confidence is 0.1.  (When only the
individual queries fail, the per-stage handlers skip the stages
instead; the confidence can then be 0.0, as the counterexample
shows, while the address still falls back to the coordinate string.) -/
theorem c5_lookup_never_raises (env : GeoEnv) (lat lon radius : ℚ)
    (h1 : -90 ≤ lat) (h2 : lat ≤ 90) (h3 : -180 ≤ lon) (h4 : lon ≤ 180) :
    (getLocationInfo env lat lon radius).isOk = true ∧
    (env.connectOk = false →
      getLocationInfo env lat lon radius =
        .ok { emptyLocation lat lon radius with
              formattedAddress := coordAddress lat lon, confidence := 1/10 }) := by
  constructor
  · unfold getLocationInfo
    rw [if_pos ⟨h1, h2, h3, h4⟩]
    rfl
  · intro hc
    unfold getLocationInfo locationBody
    rw [if_pos ⟨h1, h2, h3, h4⟩, hc]
    simp

/-- C5 witness: a database-down environment at coordinates (1, 2). -/
theorem c5_lookup_never_raises_witness :
    (getLocationInfo geoEnvDown 1 2 10).isOk = true ∧
    (geoEnvDown.connectOk = false →
      getLocationInfo geoEnvDown 1 2 10 =
        .ok { emptyLocation 1 2 10 with
              formattedAddress := coordAddress 1 2, confidence := 1/10 }) :=
  c5_lookup_never_raises geoEnvDown 1 2 10 (by decide) (by decide) (by decide) (by decide)

/-- C7 counterexample: a request whose generation degrades to the
orchestrator's exception fallback (style `fallback`, success still
true) is nevertheless written to the request cache — `cache.set_caption`
is called unconditionally at line 206. -/
theorem c7_counterexample_fallback_result_is_cached :
    ((generateCaptionRoute 5 0 [] aiEnvImageFails reqStd).cache.map
      (fun kv => (kv.2.style, kv.2.success)) = [(styleFallback, true)]) ∧
    (generateCaptionRoute 5 0 [] aiEnvImageFails reqStd).status = 200 := by
  refine ⟨?_, ?_⟩ <;>
  norm_num +decide [generateCaptionRoute, reqStd, aiEnvImageFails, generateCaptionAsync,
    fallbackResult, prepareResponseData, cacheSet, styleFallback, List.lookup]

/-- The tail of the orchestrator never reports a geo lookup when the
geolocation stage was skipped. -/
theorem aiAfterGeo_none_geoCalled (env : AIEnv) (img : ImgResult)
    (language style : String) (inc : Bool) :
    (aiAfterGeo env img none language style inc).geoCalled = false := by
  unfold aiAfterGeo
  dsimp only
  rcases env.captionGen with _ | c
  · rfl
  · dsimp only
    rcases hh : (if inc then env.hashtagGen else Except.ok []) with _ | hs <;> rfl

/-- C9: a latitude or longitude equal to exactly 0.0 is falsy in the
orchestrator's `if latitude and longitude:` guard, so the geolocation
stage is skipped entirely — no lookup is made and the result is the
same as for a request without GPS, geo context and 0.3 geo confidence
term included. -/
theorem c9_zero_coordinate_skips_geolocation (env : AIEnv) (lat lon : Option ℚ)
    (language style : String) (inc : Bool) (h : lat = some 0 ∨ lon = some 0) :
    generateCaptionAsync env lat lon language style inc =
      generateCaptionAsync env none none language style inc ∧
    (generateCaptionAsync env lat lon language style inc).geoCalled = false := by
  have hfalse : (floatTruthy lat && floatTruthy lon) = false := by
    rcases h with rfl | rfl
    · simp [floatTruthy]
    · simp [floatTruthy]
  have hmain : generateCaptionAsync env lat lon language style inc =
      generateCaptionAsync env none none language style inc := by
    unfold generateCaptionAsync
    rcases env.imageAnalysis with e | img
    · rfl
    · rw [hfalse]
      rfl
  refine ⟨hmain, ?_⟩
  rw [hmain]
  unfold generateCaptionAsync
  rcases env.imageAnalysis with e | img
  · rfl
  · exact aiAfterGeo_none_geoCalled env img language style inc

/-- C9 witness: latitude exactly 0 with a valid longitude present. -/
theorem c9_zero_coordinate_skips_geolocation_witness :
    generateCaptionAsync aiEnvAllOk (some 0) (some 5) "fr" "creative" true =
      generateCaptionAsync aiEnvAllOk none none "fr" "creative" true ∧
    (generateCaptionAsync aiEnvAllOk (some 0) (some 5) "fr" "creative" true).geoCalled =
      false :=
  c9_zero_coordinate_skips_geolocation aiEnvAllOk (some 0) (some 5) "fr" "creative" true
    (Or.inl rfl)

/-- When `encode_image` returns an embedding for a truthy asset id
with caching enabled, the cache afterwards maps that image's key to
that embedding (either it was just stored, or the hit returned it). -/
theorem encodeImage_caches (md5hex : List Nat → String) (clip : List Nat → Int)
    (dOk : Bool) (st : DupCacheState) (d : List Nat) (a : String) (e : Int)
    (ha : a ≠ "")
    (h1 : (encodeImage md5hex clip true true dOk st d (some a)).1 = some e) :
    ((encodeImage md5hex clip true true dOk st d (some a)).2).cache.lookup
      (getCacheKey md5hex d a) = some e := by
  simp only [encodeImage, Bool.true_eq_false, if_false, ha, ne_eq, not_false_iff,
    eq_self_iff_true, and_true, if_true] at h1 ⊢
  rcases hl : st.cache.lookup (getCacheKey md5hex d a) with _ | v
  · rw [hl] at h1
    dsimp only at h1 ⊢
    rcases dOk with _ | _
    · simp at h1
    · simp only [eq_self_iff_true, if_true] at h1 ⊢
      simp only [List.lookup, beq_self_eq_true]
      exact h1
  · rw [hl] at h1
    rw [hl]
    exact h1

/-- C10: the embedding cache key depends only on the asset id and the
first 1024 bytes of the image, so once an embedding has been produced
for an image, encoding any image with the same first 1024 bytes under
the same asset id returns the cached embedding and counts a cache hit
— even when the remaining bytes differ (and even when the new image
would not decode at all). -/
theorem c10_cache_key_ignores_bytes_beyond_1024 (md5hex : List Nat → String)
    (clip : List Nat → Int) (dOk1 dOk2 : Bool) (st : DupCacheState)
    (d1 d2 : List Nat) (a : String) (e : Int)
    (hpre : d1.take 1024 = d2.take 1024) (ha : a ≠ "")
    (h1 : (encodeImage md5hex clip true true dOk1 st d1 (some a)).1 = some e) :
    (encodeImage md5hex clip true true dOk2
        ((encodeImage md5hex clip true true dOk1 st d1 (some a)).2) d2 (some a)).1 =
      some e ∧
    (encodeImage md5hex clip true true dOk2
        ((encodeImage md5hex clip true true dOk1 st d1 (some a)).2) d2 (some a)).2.hits =
      ((encodeImage md5hex clip true true dOk1 st d1 (some a)).2).hits + 1 := by
  have hkey : getCacheKey md5hex d2 a = getCacheKey md5hex d1 a := by
    unfold getCacheKey
    rw [hpre]
  have hc := encodeImage_caches md5hex clip dOk1 st d1 a e ha h1
  generalize hst : (encodeImage md5hex clip true true dOk1 st d1 (some a)).2 = st1 at hc ⊢
  simp only [encodeImage, Bool.true_eq_false, if_false, ha, ne_eq, not_false_iff,
    eq_self_iff_true, and_true, if_true]
  rw [hkey, hc]
  exact ⟨rfl, rfl⟩

set_option maxRecDepth 8000 in
/-- C10 witness: a 1025-byte image and a 1026-byte one agreeing on the
first 1024 bytes, the second of which is not even decodable. -/
theorem c10_cache_key_ignores_bytes_beyond_1024_witness :
    (encodeImage (fun _ => "d0d0d0d0") (fun _ => 7) true true false
        ((encodeImage (fun _ => "d0d0d0d0") (fun _ => 7) true true true
          ⟨[], 0, 0⟩ (List.replicate 1025 0) (some "A")).2)
        (List.replicate 1025 0 ++ [5]) (some "A")).1 = some 7 ∧
    (encodeImage (fun _ => "d0d0d0d0") (fun _ => 7) true true false
        ((encodeImage (fun _ => "d0d0d0d0") (fun _ => 7) true true true
          ⟨[], 0, 0⟩ (List.replicate 1025 0) (some "A")).2)
        (List.replicate 1025 0 ++ [5]) (some "A")).2.hits =
      ((encodeImage (fun _ => "d0d0d0d0") (fun _ => 7) true true true
          ⟨[], 0, 0⟩ (List.replicate 1025 0) (some "A")).2).hits + 1 :=
  c10_cache_key_ignores_bytes_beyond_1024 (fun _ => "d0d0d0d0") (fun _ => 7) true false
    ⟨[], 0, 0⟩ (List.replicate 1025 0) (List.replicate 1025 0 ++ [5]) "A" 7
    (by decide) (by decide) (by rfl)

/-- C7 (amended): the synchronous endpoint stores every completed
generation result in the request cache — including degraded fallback
results (`success = true`, `style = 'fallback'`): `cache.set_caption`
at line 206 runs unconditionally once generation completed, so only
the early-exit paths leave the cache unchanged. -/
theorem c7_every_completed_result_is_cached (maxConc : Nat) (active : Int)
    (cache : List (CacheKeyM × RespData)) (aienv : AIEnv) (req : SyncReq) (la lo : ℚ)
    (hadm : ¬(maxConc : Int) ≤ active)
    (hjson : req.jsonOk = true) (hasset : req.assetId ≠ "") (himg : req.hasImage = true)
    (hlat : req.lat = some la) (hlon : req.lon = some lo)
    (hrange : -90 ≤ la ∧ la ≤ 90 ∧ -180 ≤ lo ∧ lo ≤ 180)
    (hmiss : cache.lookup
      ⟨req.assetId, roundTo6 la, roundTo6 lo, req.language, req.style⟩ = none)
    (hsave : req.imageSaveOk = true) (hai : req.aiAvailable = true)
    (hinner : req.innerRaises = false) :
    (generateCaptionRoute maxConc active cache aienv req).cache =
      cacheSet ⟨req.assetId, roundTo6 la, roundTo6 lo, req.language, req.style⟩
        (prepareResponseData
          (generateCaptionAsync aienv (some la) (some lo) req.language req.style true)
          req.assetId) cache ∧
    (generateCaptionRoute maxConc active cache aienv req).status = 200 := by
  unfold generateCaptionRoute
  rw [if_neg hadm]
  simp only [hjson, hasset, himg, hlat, hlon, hsave, hai, hinner, Bool.true_eq_false,
    if_false, ne_eq, not_false_iff, ite_false]
  rw [if_pos hrange, hmiss]
  exact ⟨rfl, rfl⟩

/-- C7 witness: a degraded (fallback) generation on a fresh cache and
counter. -/
theorem c7_every_completed_result_is_cached_witness :
    (generateCaptionRoute 5 0 [] aiEnvImageFails reqStd).cache =
      cacheSet ⟨reqStd.assetId, roundTo6 10, roundTo6 20, reqStd.language, reqStd.style⟩
        (prepareResponseData
          (generateCaptionAsync aiEnvImageFails (some 10) (some 20)
            reqStd.language reqStd.style true) reqStd.assetId) [] ∧
    (generateCaptionRoute 5 0 [] aiEnvImageFails reqStd).status = 200 :=
  c7_every_completed_result_is_cached 5 0 [] aiEnvImageFails reqStd 10 20
    (by decide) rfl (by decide) rfl rfl rfl (by decide) rfl rfl rfl rfl

/-! Helper lemmas about the primary-marking pass of the duplicate
detector. -/

theorem rankImages_length (i : Nat) (l : List (DupImg × ℚ)) :
    (rankImages i l).length = l.length := by
  induction l generalizing i with
  | nil => rfl
  | cons p rest ih =>
      obtain ⟨img, s⟩ := p
      simp [rankImages, ih]

theorem rankImages_no_primary (l : List (DupImg × ℚ)) :
    ∀ i, i ≠ 0 → (rankImages i l).filter (fun x => x.isPrimary) = [] := by
  induction l with
  | nil => intro i _; rfl
  | cons p rest ih =>
      intro i hi
      obtain ⟨img, s⟩ := p
      have hb : (i == 0) = false := beq_eq_false_iff_ne.mpr hi
      simp only [rankImages, List.filter, hb]
      exact ih (i + 1) (Nat.succ_ne_zero i)

theorem rankImages_one_primary (p : DupImg × ℚ) (rest : List (DupImg × ℚ)) :
    ((rankImages 0 (p :: rest)).filter (fun x => x.isPrimary)).length = 1 := by
  obtain ⟨img, s⟩ := p
  simp only [rankImages, List.filter]
  rw [rankImages_no_primary rest 1 (by decide)]
  rfl

theorem rankImages_score_mem (l : List (DupImg × ℚ)) :
    ∀ i y, y ∈ rankImages i l → ∃ p ∈ l, y.qualityScore = p.2 := by
  induction l with
  | nil => intro i y hy; cases hy
  | cons p rest ih =>
      intro i y hy
      obtain ⟨img, s⟩ := p
      rcases hy with _ | ⟨_, hy⟩
      · exact ⟨(img, s), List.mem_cons_self _ _, rfl⟩
      · obtain ⟨q, hq, hsc⟩ := ih (i + 1) y hy
        exact ⟨q, List.mem_cons_of_mem _ hq, hsc⟩

/-- C6: in every group returned by the quality-analysis pass with at
least two members, exactly one member is marked primary, and that
member's quality score is at least the quality score of every member
of the group — whether or not the image-quality service is available. -/
theorem c6_exactly_one_primary_with_top_score (env : QualityEnv)
    (groups : List DupGroupM) (g : DupGroupM)
    (hg : g ∈ analyzeGroupsQuality env groups) (hlen : 2 ≤ g.images.length) :
    ((g.images.filter (fun x => x.isPrimary)).length = 1) ∧
    ∃ p ∈ g.images, p.isPrimary = true ∧
      ∀ x ∈ g.images, x.qualityScore ≤ p.qualityScore := by
  unfold analyzeGroupsQuality at hg
  by_cases hs : env.serviceAvailable = false
  · rw [if_pos hs] at hg
    obtain ⟨g0, hg0, rfl⟩ := List.mem_map.mp hg
    dsimp only at hlen ⊢
    rcases hm : g0.images.map (fun i => (i, (0 : ℚ))) with _ | ⟨q, qs⟩
    · rw [hm] at hlen
      simp [rankImages] at hlen
    · refine ⟨rankImages_one_primary q qs, ?_⟩
      obtain ⟨img, s⟩ := q
      refine ⟨{ img with isPrimary := true, qualityScore := s }, ?_, rfl, ?_⟩
      · exact List.mem_cons_self _ _
      · intro x hx
        obtain ⟨p, hp, hsc⟩ := rankImages_score_mem _ 0 x hx
        have hp' : p ∈ g0.images.map (fun i => (i, (0 : ℚ))) := by
          rw [hm]; exact hp
        obtain ⟨i, _, hi⟩ := List.mem_map.mp hp'
        have hp0 : p.2 = 0 := by rw [← hi]
        have hq' : ((img, s) : DupImg × ℚ) ∈ g0.images.map (fun i => (i, (0 : ℚ))) := by
          rw [hm]; exact List.mem_cons_self _ _
        obtain ⟨j, _, hj⟩ := List.mem_map.mp hq'
        have hs0 : s = 0 := by
          have h2 := congrArg Prod.snd hj
          simpa using h2.symm
        rw [hsc, hp0, hs0]
  · rw [if_neg hs] at hg
    obtain ⟨g0, hg0, rfl⟩ := List.mem_map.mp hg
    unfold analyzeGroupQuality at hlen ⊢
    dsimp only at hlen ⊢
    rcases hm : List.insertionSort scoreGe
        (g0.images.map (fun img => (img, imageScore env img.assetId))) with _ | ⟨q, qs⟩
    · rw [hm] at hlen
      simp [rankImages] at hlen
    · have hsorted := List.sorted_insertionSort scoreGe
        (g0.images.map (fun img => (img, imageScore env img.assetId)))
      rw [hm] at hsorted
      have hdom : ∀ b ∈ qs, scoreGe q b := List.rel_of_sorted_cons hsorted
      refine ⟨rankImages_one_primary q qs, ?_⟩
      obtain ⟨img, s⟩ := q
      refine ⟨{ img with isPrimary := true, qualityScore := s }, ?_, rfl, ?_⟩
      · exact List.mem_cons_self _ _
      · intro x hx
        obtain ⟨p, hp, hsc⟩ := rankImages_score_mem _ 0 x hx
        rcases hp with _ | ⟨_, hp⟩
        · rw [hsc]
        · have := hdom p hp
          rw [hsc]
          exact this

/-- C6 witness: a two-member group analysed with the quality service
available (B scores 7, A scores 5: B must come out primary). -/
theorem c6_exactly_one_primary_with_top_score_witness :
    (((analyzeGroupQuality qualityEnvC6
        ⟨"group_0", [⟨"A", false, 0⟩, ⟨"B", false, 0⟩], ""⟩).images.filter
      (fun x => x.isPrimary)).length = 1) ∧
    ∃ p ∈ (analyzeGroupQuality qualityEnvC6
        ⟨"group_0", [⟨"A", false, 0⟩, ⟨"B", false, 0⟩], ""⟩).images, p.isPrimary = true ∧
      ∀ x ∈ (analyzeGroupQuality qualityEnvC6
        ⟨"group_0", [⟨"A", false, 0⟩, ⟨"B", false, 0⟩], ""⟩).images,
        x.qualityScore ≤ p.qualityScore :=
  c6_exactly_one_primary_with_top_score qualityEnvC6 dupGroupsC6 _
    (by decide) (by decide)

set_option maxRecDepth 10000 in
/-- C8 counterexample: `clean_caption` is not idempotent.  Cleaning
`" #a"` strips the blank and exposes a leading `#`, which a second
pass deletes entirely; and a 501-character caption is truncated to a
string that still exceeds the budget, so a second pass truncates again
and appends a second separator. -/
theorem c8_counterexample_not_idempotent :
    (cleanCaption 500 3 (cleanCaption 500 3 [' ', '#', 'a']) ≠
      cleanCaption 500 3 [' ', '#', 'a']) ∧
    (cleanCaption 500 3 (cleanCaption 500 3 (List.replicate 501 'a')) ≠
      cleanCaption 500 3 (List.replicate 501 'a')) :=
  ⟨by decide, by decide⟩

/-! Helper lemmas for the restricted idempotency of `clean_caption`:
invariants of whitespace collapse, strip, hash-line removal and
character-run removal. -/

theorem subWsAux_mem_space (l : List Char) :
    ∀ (b : Bool) (ch : Char), ch ∈ subWsAux b l → pyIsSpace ch = true → ch = ' ' := by
  induction l with
  | nil => intro b ch h _; cases h
  | cons c rest ih =>
      intro b ch h hws
      cases hc : pyIsSpace c with
      | false =>
          rw [show subWsAux b (c :: rest) = c :: subWsAux false rest by
            simp [subWsAux, hc]] at h
          rcases h with _ | ⟨_, h⟩
          · rw [hc] at hws; cases hws
          · exact ih false ch h hws
      | true =>
          cases b with
          | true =>
              rw [show subWsAux true (c :: rest) = subWsAux true rest by
                simp [subWsAux, hc]] at h
              exact ih true ch h hws
          | false =>
              rw [show subWsAux false (c :: rest) = ' ' :: subWsAux true rest by
                simp [subWsAux, hc]] at h
              rcases h with _ | ⟨_, h⟩
              · rfl
              · exact ih true ch h hws

theorem subWsAux_head_not_space (l : List Char) :
    ∀ ch, (subWsAux true l).head? = some ch → pyIsSpace ch = false := by
  induction l with
  | nil => intro ch h; cases h
  | cons c rest ih =>
      intro ch h
      cases hc : pyIsSpace c with
      | false =>
          rw [show subWsAux true (c :: rest) = c :: subWsAux false rest by
            simp [subWsAux, hc]] at h
          simp only [List.head?_cons, Option.some.injEq] at h
          rw [← h]
          exact hc
      | true =>
          rw [show subWsAux true (c :: rest) = subWsAux true rest by
            simp [subWsAux, hc]] at h
          exact ih ch h

theorem subWsAux_chain (l : List Char) :
    ∀ b, List.Chain' (fun a c => ¬(pyIsSpace a = true ∧ pyIsSpace c = true))
      (subWsAux b l) := by
  induction l with
  | nil => intro b; exact List.chain'_nil
  | cons c rest ih =>
      intro b
      cases hc : pyIsSpace c with
      | false =>
          rw [show subWsAux b (c :: rest) = c :: subWsAux false rest by
            simp [subWsAux, hc]]
          rw [List.chain'_cons']
          refine ⟨fun y _ hcontra => ?_, ih false⟩
          rw [hc] at hcontra
          exact absurd hcontra.1 (by simp)
      | true =>
          cases b with
          | true =>
              rw [show subWsAux true (c :: rest) = subWsAux true rest by
                simp [subWsAux, hc]]
              exact ih true
          | false =>
              rw [show subWsAux false (c :: rest) = ' ' :: subWsAux true rest by
                simp [subWsAux, hc]]
              rw [List.chain'_cons']
              refine ⟨fun y hy hcontra => ?_, ih true⟩
              have := subWsAux_head_not_space rest y hy
              rw [this] at hcontra
              exact absurd hcontra.2 (by simp)

theorem dropWhile_head_not {α : Type} (p : α → Bool) (l : List α) :
    ∀ ch, (l.dropWhile p).head? = some ch → p ch = false := by
  induction l with
  | nil => intro ch h; cases h
  | cons c rest ih =>
      intro ch h
      rw [List.dropWhile_cons] at h
      by_cases hc : p c = true
      · rw [if_pos hc] at h
        exact ih ch h
      · rw [if_neg hc] at h
        simp only [List.head?_cons, Option.some.injEq] at h
        rw [← h]
        exact Bool.not_eq_true _ ▸ hc

theorem dropWhile_id_of_head {α : Type} (p : α → Bool) (l : List α)
    (h : ∀ ch, l.head? = some ch → p ch = false) : l.dropWhile p = l := by
  cases l with
  | nil => rfl
  | cons c rest =>
      rw [List.dropWhile_cons, if_neg]
      rw [h c rfl]
      simp

theorem stripWs_subset (l : List Char) : stripWs l ⊆ l := by
  intro x hx
  unfold stripWs at hx
  have h1 := (List.dropWhile_sublist pyIsSpace).subset hx
  have h2 := List.mem_reverse.mp h1
  have h3 := (List.dropWhile_sublist pyIsSpace).subset h2
  exact List.mem_reverse.mp h3

theorem chain_stripWs {P : Char → Char → Prop} (hsym : ∀ a b, P a b → P b a)
    (l : List Char) (h : List.Chain' P l) : List.Chain' P (stripWs l) := by
  unfold stripWs
  have h1 : List.Chain' P l.reverse :=
    List.chain'_reverse.mpr (h.imp fun a b hab => hsym a b hab)
  have h2 : List.Chain' P (l.reverse.dropWhile pyIsSpace) :=
    h1.suffix (List.dropWhile_suffix _)
  have h3 : List.Chain' P (l.reverse.dropWhile pyIsSpace).reverse :=
    List.chain'_reverse.mpr (h2.imp fun a b hab => hsym a b hab)
  exact h3.suffix (List.dropWhile_suffix _)

theorem suffix_getLast {α : Type} {v w : List α} (h : v <:+ w) (hv : v ≠ []) :
    w.getLast? = v.getLast? := by
  obtain ⟨t, rfl⟩ := h
  rw [List.getLast?_append]
  cases hl : v.getLast? with
  | none => exact absurd (List.getLast?_eq_none_iff.mp hl) hv
  | some x => rfl

theorem stripWs_head_not (l : List Char) :
    ∀ ch, (stripWs l).head? = some ch → pyIsSpace ch = false :=
  fun ch h => dropWhile_head_not pyIsSpace _ ch h

theorem stripWs_getLast_not (l : List Char) :
    ∀ ch, (stripWs l).getLast? = some ch → pyIsSpace ch = false := by
  intro ch h
  unfold stripWs at h
  have hne : ((l.reverse.dropWhile pyIsSpace).reverse).dropWhile pyIsSpace ≠ [] := by
    intro h0
    rw [h0] at h
    cases h
  have hw : ((l.reverse.dropWhile pyIsSpace).reverse).getLast? = some ch := by
    rw [suffix_getLast (List.dropWhile_suffix pyIsSpace) hne]
    exact h
  rw [List.getLast?_reverse] at hw
  exact dropWhile_head_not pyIsSpace _ ch hw

theorem stripWs_id (l : List Char)
    (hhead : ∀ ch, l.head? = some ch → pyIsSpace ch = false)
    (hlast : ∀ ch, l.getLast? = some ch → pyIsSpace ch = false) : stripWs l = l := by
  unfold stripWs
  have h1 : l.reverse.dropWhile pyIsSpace = l.reverse :=
    dropWhile_id_of_head pyIsSpace _ fun ch hch =>
      hlast ch (by rw [← List.head?_reverse]; exact hch)
  rw [h1, List.reverse_reverse]
  exact dropWhile_id_of_head pyIsSpace _ hhead

theorem subWsAux_id : ∀ (n : Nat) (l : List Char), l.length ≤ n →
    (∀ ch ∈ l, pyIsSpace ch = true → ch = ' ') →
    List.Chain' (fun a c => ¬(pyIsSpace a = true ∧ pyIsSpace c = true)) l →
    subWsAux false l = l := by
  intro n
  induction n with
  | zero =>
      intro l hl _ _
      cases l with
      | nil => rfl
      | cons c rest => simp at hl
  | succ n ih =>
      intro l hl hmem hchain
      cases l with
      | nil => rfl
      | cons c rest =>
          cases hc : pyIsSpace c with
          | false =>
              rw [show subWsAux false (c :: rest) = c :: subWsAux false rest by
                simp [subWsAux, hc]]
              rw [ih rest (by simp at hl; omega)
                (fun ch h hw => hmem ch (List.mem_cons_of_mem _ h) hw) hchain.tail]
          | true =>
              have hc' : c = ' ' := hmem c (List.mem_cons_self _ _) hc
              rw [show subWsAux false (c :: rest) = ' ' :: subWsAux true rest by
                simp [subWsAux, hc]]
              rw [hc']
              cases rest with
              | nil => rfl
              | cons d rest2 =>
                  have hd : pyIsSpace d = false := by
                    obtain ⟨hrel, _⟩ := List.chain'_cons.mp hchain
                    by_contra h0
                    simp only [Bool.not_eq_false] at h0
                    exact hrel ⟨hc, h0⟩
                  rw [show subWsAux true (d :: rest2) = d :: subWsAux false rest2 by
                    simp [subWsAux, hd]]
                  rw [ih rest2 (by simp at hl; omega)
                    (fun ch h hw =>
                      hmem ch (List.mem_cons_of_mem _ (List.mem_cons_of_mem _ h)) hw)
                    hchain.tail.tail]

theorem rhlAux_one_id (l : List Char) (h : '\n' ∉ l) : rhlAux 1 l = l := by
  induction l with
  | nil => rfl
  | cons c rest ih =>
      have hc : ¬(c = '\n') := fun hh => h (hh ▸ List.mem_cons_self _ _)
      rw [show rhlAux 1 (c :: rest) = c :: rhlAux 1 rest by simp [rhlAux, hc]]
      rw [ih fun hm => h (List.mem_cons_of_mem _ hm)]

theorem removeHashLines_id (l : List Char) (hnl : '\n' ∉ l)
    (hh : l.head? ≠ some '#') : removeHashLines l = l := by
  cases l with
  | nil => rfl
  | cons c rest =>
      have hc : ¬(c = '#') := fun h0 => hh (by rw [h0]; rfl)
      have hcn : ¬(c = '\n') := fun h0 => hnl (h0 ▸ List.mem_cons_self _ _)
      rw [show removeHashLines (c :: rest) = c :: rhlAux 1 rest by
        simp [removeHashLines, rhlAux, hc, hcn]]
      rw [rhlAux_one_id rest fun hm => hnl (List.mem_cons_of_mem _ hm)]

theorem runsAux_id : ∀ (n : Nat) (l : List Char) (t : Char), l.length ≤ n →
    List.Chain' (fun a b => ¬(a = t ∧ b = t)) l → runsAux t 0 l = l := by
  intro n
  induction n with
  | zero =>
      intro l t hl _
      cases l with
      | nil => rfl
      | cons c rest => simp at hl
  | succ n ih =>
      intro l t hl hadj
      cases l with
      | nil => rfl
      | cons c rest =>
          by_cases hc : c = t
          · rw [show runsAux t 0 (c :: rest) = runsAux t 1 rest by simp [runsAux, hc]]
            cases rest with
            | nil => simp [runsAux, hc]
            | cons d rest2 =>
                have hd : ¬(d = t) := by
                  obtain ⟨hrel, _⟩ := List.chain'_cons.mp hadj
                  intro h0
                  exact hrel ⟨hc, h0⟩
                rw [show runsAux t 1 (d :: rest2) = t :: d :: runsAux t 0 rest2 by
                  simp [runsAux, hd]]
                rw [ih rest2 t (by simp at hl; omega) hadj.tail.tail, hc]
          · rw [show runsAux t 0 (c :: rest) = c :: runsAux t 0 rest by
              simp [runsAux, hc]]
            rw [ih rest t (by simp at hl; omega) hadj.tail]

theorem noAdjacent_chain (t : Char) : ∀ (l : List Char), noAdjacent t l →
    List.Chain' (fun a b => ¬(a = t ∧ b = t)) l := by
  intro l
  induction l with
  | nil => intro _; exact List.chain'_nil
  | cons a rest ih =>
      cases rest with
      | nil => intro _; simp
      | cons b rest2 =>
          intro h
          rw [noAdjacent, noAdjacentB, Bool.and_eq_true] at h
          obtain ⟨h1, h2⟩ := h
          rw [List.chain'_cons]
          constructor
          · intro hcontra
            obtain ⟨rfl, rfl⟩ := hcontra
            simp at h1
          · exact ih h2

/-- The cleaning passes are the identity on an already-cleaned caption
that does not start with `#` and has no doubled `*` or `_`. -/
theorem preClean_fixed (l : List Char)
    (hhash : (preClean l).head? ≠ some '#')
    (hstar : noAdjacent '*' (preClean l))
    (hund : noAdjacent '_' (preClean l)) :
    preClean (preClean l) = preClean l := by
  have hmem : ∀ ch ∈ preClean l, pyIsSpace ch = true → ch = ' ' := by
    intro ch hch hws
    have h1 : ch ∈ subWs (removeRuns '_' (removeRuns '*' (removeHashLines l))) :=
      stripWs_subset _ hch
    exact subWsAux_mem_space _ false ch h1 hws
  have hchain : List.Chain' (fun a c => ¬(pyIsSpace a = true ∧ pyIsSpace c = true))
      (preClean l) :=
    chain_stripWs (fun a b hab hba => hab ⟨hba.2, hba.1⟩) _ (subWsAux_chain _ false)
  have hnl : '\n' ∉ preClean l := by
    intro hmemnl
    have := hmem '\n' hmemnl (by decide)
    cases this
  have h1 : removeHashLines (preClean l) = preClean l :=
    removeHashLines_id _ hnl hhash
  have h2 : removeRuns '*' (preClean l) = preClean l :=
    runsAux_id (preClean l).length _ '*' le_rfl (noAdjacent_chain '*' _ hstar)
  have h3 : removeRuns '_' (preClean l) = preClean l :=
    runsAux_id (preClean l).length _ '_' le_rfl (noAdjacent_chain '_' _ hund)
  have h4 : subWs (preClean l) = preClean l :=
    subWsAux_id (preClean l).length _ le_rfl hmem hchain
  have h5 : stripWs (preClean l) = preClean l :=
    stripWs_id _ (stripWs_head_not _) (stripWs_getLast_not _)
  show stripWs (subWs (removeRuns '_' (removeRuns '*'
    (removeHashLines (preClean l))))) = preClean l
  rw [h1, h2, h3, h4, h5]

/-- C8 (amended): `clean_caption` is idempotent on every input whose
cleaned text fits the character budget (so sentence truncation does
not fire), does not begin with `#`, and contains no run of two or more
asterisks or underscores.  Outside these conditions idempotency fails,
as the counterexample shows — in particular on inputs longer than the
budget, where re-truncation appends a second separator. -/
theorem c8_clean_caption_idempotent_when_within_budget (maxLen maxSent : Nat)
    (l : List Char)
    (hlen : ¬ maxLen < (preClean l).length)
    (hhash : (preClean l).head? ≠ some '#')
    (hstar : noAdjacent '*' (preClean l))
    (hund : noAdjacent '_' (preClean l)) :
    cleanCaption maxLen maxSent (cleanCaption maxLen maxSent l) =
      cleanCaption maxLen maxSent l := by
  by_cases hnil : l = []
  · subst hnil
    rfl
  · have h1 : cleanCaption maxLen maxSent l = preClean l := by
      unfold cleanCaption
      rw [if_neg hnil]
      exact if_neg hlen
    rw [h1]
    by_cases hcnil : preClean l = []
    · rw [hcnil]
      rfl
    · have hfix := preClean_fixed l hhash hstar hund
      unfold cleanCaption
      rw [if_neg hcnil, hfix]
      exact if_neg hlen

/-- C8 witness: a short already-normal caption. -/
theorem c8_clean_caption_idempotent_when_within_budget_witness :
    cleanCaption 500 3 (cleanCaption 500 3 ['a', 'b', ' ', 'c']) =
      cleanCaption 500 3 ['a', 'b', ' ', 'c'] :=
  c8_clean_caption_idempotent_when_within_budget 500 3 ['a', 'b', ' ', 'c']
    (by decide) (by decide) (by decide) (by decide)

end CaptionMaker
